import Mathlib

/-!
Verification of the st2 execution-purge tool (tools/purge_executions.py).

The script selects ActionExecution records older than a cutoff timestamp,
optionally restricted to one action reference, and deletes each selected
execution together with its referenced LiveAction record, tolerating
per-record failures.  We embed the purge logic shallowly: the store is a
pair of record lists, store operations return `Except` (an exception is an
`error` value), and possible store-side failures are injected through a
`FailureOracle`.  Log lines emitted by the script are modelled as event
counters in the run state, and the module-global `DELETED_COUNT` is the
`deletedCount` field threaded through the run state.
-/

set_option autoImplicit false

namespace PurgeExecutions

/-- Modelled from the spec: the in-progress status constants come from
`st2common.constants.action`, which is not under src; the spec names the
in-progress states running, scheduled, requested, canceling, delayed. -/
def LIVEACTION_STATUS_RUNNING : String := "running"

/-- Modelled from the spec: scheduled status constant. -/
def LIVEACTION_STATUS_SCHEDULED : String := "scheduled"

/-- Modelled from the spec: requested status constant. -/
def LIVEACTION_STATUS_REQUESTED : String := "requested"

/-- Modelled from the spec: canceling status constant. -/
def LIVEACTION_STATUS_CANCELING : String := "canceling"

/-- Modelled from the spec: delayed status constant. -/
def LIVEACTION_STATUS_DELAYED : String := "delayed"

/-- The list `IN_PROGRESS_STATES` from tools/purge_executions.py. -/
def IN_PROGRESS_STATES : List String :=
  [LIVEACTION_STATUS_RUNNING,
   LIVEACTION_STATUS_SCHEDULED,
   LIVEACTION_STATUS_REQUESTED,
   LIVEACTION_STATUS_CANCELING,
   LIVEACTION_STATUS_DELAYED]

/-- An ActionExecution document as the purge script reads it: its id, its
status string, its start and end timestamps, and the embedded liveaction
dict, of which the script reads `liveaction.get('id', None)` (an absent key
yields `none`; Python treats `None` and the empty string alike as falsy)
and `liveaction['action']`. -/
structure ExecutionDB where
  id : Nat
  status : String
  start_timestamp : Int
  end_timestamp : Int
  liveaction_id : Option String
  liveaction_action : String
deriving DecidableEq, Repr

/-- A LiveAction document; the script only uses its identity. -/
structure LiveActionDB where
  id : String
deriving DecidableEq, Repr

/-- The persistent store: the ActionExecution and LiveAction collections. -/
structure Store where
  executions : List ExecutionDB
  liveactions : List LiveActionDB
deriving DecidableEq, Repr

/-- Injects store-side failures: whether `LiveAction.get_by_id`,
`ActionExecution.delete` or `LiveAction.delete` raises for a given record.
The bare `except:` clauses of the script catch any such exception. -/
structure FailureOracle where
  failGetLiveAction : String → Bool
  failDeleteExecution : Nat → Bool
  failDeleteLiveAction : String → Bool

/-- The state threaded through one process: the store, the module-global
`DELETED_COUNT`, a counter of store queries issued, and one counter per
log line the script can emit (invalid liveaction id, liveaction not found,
execution delete failed, zombie liveaction left behind). -/
structure RunState where
  store : Store
  deletedCount : Nat
  queries : Nat
  invalidIdLogs : Nat
  notFoundLogs : Nat
  deleteExecFailedLogs : Nat
  zombieLogs : Nat
deriving DecidableEq, Repr

/-- Modelled from the spec: `LiveAction.get_by_id` lives in the persistence
layer, not under src.  Lookup by id raises for a missing id (`None`), for
an invalid empty id, when the oracle injects a store failure, and when no
record with that id exists (the spec's NotFound cases). -/
def liveActionGetById (o : FailureOracle) (st : Store) (oid : Option String) :
    Except String LiveActionDB :=
  match oid with
  | none => Except.error "invalid id"
  | some i =>
    if i = "" then Except.error "invalid id"
    else if o.failGetLiveAction i then Except.error "store failure"
    else
      match st.liveactions.find? (fun la => la.id == i) with
      | some la => Except.ok la
      | none => Except.error "not found"

/-- Modelled from the spec: `ActionExecution.delete` (persistence layer,
not under src) removes the record by key, or raises when the oracle
injects a store failure. -/
def actionExecutionDelete (o : FailureOracle) (st : Store) (e : ExecutionDB) :
    Except String Store :=
  if o.failDeleteExecution e.id then Except.error "store failure"
  else Except.ok { st with executions := st.executions.filter (fun x => x.id != e.id) }

/-- Modelled from the spec: `LiveAction.delete` (persistence layer, not
under src) removes the record by key, or raises when the oracle injects a
store failure. -/
def liveActionDelete (o : FailureOracle) (st : Store) (la : LiveActionDB) :
    Except String Store :=
  if o.failDeleteLiveAction la.id then Except.error "store failure"
  else Except.ok { st with liveactions := st.liveactions.filter (fun x => x.id != la.id) }

/-- The second half of `_purge_models`, from `ActionExecution.delete`
onward: try to delete the execution (on exception log and stop); on
success, if a liveaction was resolved, try to delete it (on exception log
the zombie). -/
def purgeModelsDelete (o : FailureOracle) (s : RunState) (execution_db : ExecutionDB)
    (liveaction_db : Option LiveActionDB) : RunState :=
  match actionExecutionDelete o s.store execution_db with
  | Except.error _ => { s with deleteExecFailedLogs := s.deleteExecFailedLogs + 1 }
  | Except.ok st1 =>
    let s1 := { s with store := st1 }
    match liveaction_db with
    | none => s1
    | some la =>
      match liveActionDelete o s1.store la with
      | Except.error _ => { s1 with zombieLogs := s1.zombieLogs + 1 }
      | Except.ok st2 => { s1 with store := st2 }

/-- The function `_purge_models` of tools/purge_executions.py.  It reads
`liveaction.get('id', None)`, logs when that id is falsy (but continues),
tries `LiveAction.get_by_id` (on exception logs not-found and leaves
`liveaction_db = None`, on success increments the global `DELETED_COUNT`),
then runs the delete sequence.  Every store exception is caught, so the
function is total. -/
def purgeModels (o : FailureOracle) (s : RunState) (execution_db : ExecutionDB) : RunState :=
  let liveaction_id := execution_db.liveaction_id
  let s1 :=
    if liveaction_id = none ∨ liveaction_id = some "" then
      { s with invalidIdLogs := s.invalidIdLogs + 1 }
    else s
  match liveActionGetById o s1.store liveaction_id with
  | Except.error _ =>
    purgeModelsDelete o { s1 with notFoundLogs := s1.notFoundLogs + 1 } execution_db none
  | Except.ok la =>
    purgeModelsDelete o { s1 with deletedCount := s1.deletedCount + 1 } execution_db (some la)

/-- The function `_should_delete` of tools/purge_executions.py. -/
def shouldDelete (execution_db : ExecutionDB) (action_ref : String) (timestamp : Int) : Bool :=
  if execution_db.status ∈ IN_PROGRESS_STATES then false
  else if action_ref ≠ "" then
    decide (execution_db.liveaction_action = action_ref ∧
      execution_db.start_timestamp < timestamp)
  else decide (execution_db.start_timestamp < timestamp)

/-- The candidate selection of `purge_executions`: the store query
`ActionExecution.query(end_timestamp__lt=timestamp)` followed by the
in-memory `_should_delete` refinement. -/
def selectCandidates (st : Store) (timestamp : Int) (action_ref : String) :
    List ExecutionDB :=
  (st.executions.filter (fun e => decide (e.end_timestamp < timestamp))).filter
    (fun e => shouldDelete e action_ref timestamp)

/-- The function `purge_executions` of tools/purge_executions.py.  A falsy
timestamp (None) aborts before any store access; a falsy action_ref (None
or the empty string) becomes the empty string; the candidate list is
materialised from one store query plus `_should_delete`, then each
candidate is fed through `_purge_models`. -/
def purgeExecutions (o : FailureOracle) (timestamp : Option Int)
    (action_ref : Option String) (s : RunState) : RunState :=
  match timestamp with
  | none => s
  | some ts =>
    let ref := action_ref.getD ""
    let s1 := { s with queries := s.queries + 1 }
    let executions_to_delete := selectCandidates s1.store ts ref
    executions_to_delete.foldl (purgeModels o) s1

/-- The function `main` of tools/purge_executions.py, after config/option
parsing (excluded collaborators): with no timestamp it logs and returns 1;
otherwise it runs `purge_executions` and falls through to return code 0. -/
def mainRun (o : FailureOracle) (timestamp : Option Int) (action_ref : Option String)
    (s : RunState) : Nat × RunState :=
  match timestamp with
  | none => (1, s)
  | some ts => (0, purgeExecutions o (some ts) action_ref s)

/-- The oracle that injects no failures at all. -/
def noFail : FailureOracle where
  failGetLiveAction := fun _ => false
  failDeleteExecution := fun _ => false
  failDeleteLiveAction := fun _ => false

/-- Membership in the candidate list is membership in the store together
with the store-side end-timestamp filter and `_should_delete`. -/
lemma mem_selectCandidates {st : Store} {ts : Int} {ref : String} {e : ExecutionDB} :
    e ∈ selectCandidates st ts ref ↔
      e ∈ st.executions ∧ e.end_timestamp < ts ∧ shouldDelete e ref ts = true := by
  simp only [selectCandidates, List.mem_filter, decide_eq_true_eq, and_assoc]

/-- Unfolding of the `_should_delete` decision. -/
lemma shouldDelete_eq_true {e : ExecutionDB} {ref : String} {ts : Int} :
    shouldDelete e ref ts = true ↔
      e.status ∉ IN_PROGRESS_STATES ∧ e.start_timestamp < ts ∧
        (ref = "" ∨ e.liveaction_action = ref) := by
  unfold shouldDelete
  split_ifs with h1 h2
  · simp [h1]
  · simp only [decide_eq_true_eq]
    constructor
    · rintro ⟨ha, hs⟩
      exact ⟨h1, hs, Or.inr ha⟩
    · rintro ⟨-, hs, hor⟩
      rcases hor with h | h
      · exact absurd h h2
      · exact ⟨h, hs⟩
  · push_neg at h2
    simp only [decide_eq_true_eq]
    constructor
    · intro hs
      exact ⟨h1, hs, Or.inl h2⟩
    · rintro ⟨-, hs, -⟩
      exact hs

/-- A concrete execution: terminal, end timestamp before the cutoff 5,
but start timestamp after it. -/
def e1cex : ExecutionDB :=
  { id := 1, status := "succeeded", start_timestamp := 10, end_timestamp := 0,
    liveaction_id := some "la1", liveaction_action := "core.local" }

/-- A store holding only `e1cex` and its liveaction. -/
def st1cex : Store :=
  { executions := [e1cex], liveactions := [{ id := "la1" }] }

/-- C1 counterexample: `e1cex` is in the store, its end timestamp 0 is
before the cutoff 5, its status is terminal and the action-ref filter is
empty, yet `selectCandidates` does not return it, because `_should_delete`
compares the start timestamp (10, not before the cutoff) against the
cutoff, not the end timestamp.  This refutes the claim that end timestamp,
terminal status and the action-ref filter alone characterise selection. -/
theorem c1_counterexample :
    e1cex ∈ st1cex.executions ∧ e1cex.end_timestamp < 5 ∧
      e1cex.status ∉ IN_PROGRESS_STATES ∧ e1cex ∉ selectCandidates st1cex 5 "" := by
  decide

/-- C1 (amended): `selectCandidates` returns a record of the store if and
only if its end timestamp is before the cutoff, its start timestamp is
also before the cutoff, its status is terminal (not in the in-progress
set), and the action-ref filter is empty or equal to the record's action
reference. -/
theorem c1_selectCandidates_characterisation (st : Store) (ts : Int) (ref : String)
    (e : ExecutionDB) :
    e ∈ selectCandidates st ts ref ↔
      e ∈ st.executions ∧ e.end_timestamp < ts ∧ e.start_timestamp < ts ∧
        e.status ∉ IN_PROGRESS_STATES ∧ (ref = "" ∨ e.liveaction_action = ref) := by
  rw [mem_selectCandidates, shouldDelete_eq_true]
  tauto

/-- C3: a record whose status is one of the in-progress states is never
returned by `selectCandidates`, however old its timestamps are. -/
theorem c3_in_progress_never_selected (st : Store) (ts : Int) (ref : String)
    (e : ExecutionDB) (h : e.status ∈ IN_PROGRESS_STATES) :
    e ∉ selectCandidates st ts ref := by
  intro hmem
  rw [mem_selectCandidates, shouldDelete_eq_true] at hmem
  exact hmem.2.2.1 h

/-- A very old running execution. -/
def e3w : ExecutionDB :=
  { id := 2, status := "running", start_timestamp := -100, end_timestamp := -100,
    liveaction_id := some "la2", liveaction_action := "core.local" }

/-- A store holding only `e3w`. -/
def st3w : Store := { executions := [e3w], liveactions := [] }

/-- C3 witness: the running execution `e3w`, far older than the cutoff
1000, is not selected. -/
theorem c3_witness : e3w.status ∈ IN_PROGRESS_STATES ∧ e3w ∉ selectCandidates st3w 1000 "" :=
  ⟨by decide, c3_in_progress_never_selected st3w 1000 "" e3w (by decide)⟩

/-- C10: running `purge_executions` with `action_ref = None` is literally
the same computation as running it with the empty string (both are falsy
in Python and are replaced by the empty string), and with the empty filter
the selection ignores the action reference entirely. -/
theorem c10_none_action_ref_same_as_empty :
    (∀ (o : FailureOracle) (ts : Option Int) (s : RunState),
      purgeExecutions o ts none s = purgeExecutions o ts (some "") s) ∧
    (∀ (st : Store) (ts : Int) (e : ExecutionDB),
      e ∈ selectCandidates st ts "" ↔
        e ∈ st.executions ∧ e.end_timestamp < ts ∧ e.start_timestamp < ts ∧
          e.status ∉ IN_PROGRESS_STATES) := by
  constructor
  · intro o ts s
    cases ts <;> rfl
  · intro st ts e
    rw [mem_selectCandidates, shouldDelete_eq_true]
    tauto

/-- The delete sequence never touches `DELETED_COUNT` nor the invalid-id
and not-found log counters: those are written before it runs. -/
lemma purgeModelsDelete_counts (o : FailureOracle) (s : RunState) (e : ExecutionDB)
    (la? : Option LiveActionDB) :
    (purgeModelsDelete o s e la?).deletedCount = s.deletedCount ∧
    (purgeModelsDelete o s e la?).invalidIdLogs = s.invalidIdLogs ∧
    (purgeModelsDelete o s e la?).notFoundLogs = s.notFoundLogs := by
  cases h : o.failDeleteExecution e.id with
  | true => simp [purgeModelsDelete, actionExecutionDelete, h]
  | false =>
    cases la? with
    | none => simp [purgeModelsDelete, actionExecutionDelete, h]
    | some la =>
      cases h2 : o.failDeleteLiveAction la.id with
      | true => simp [purgeModelsDelete, actionExecutionDelete, liveActionDelete, h, h2]
      | false => simp [purgeModelsDelete, actionExecutionDelete, liveActionDelete, h, h2]

/-- After the delete sequence, the execution collection is unchanged when
the execution delete fails and has the record removed otherwise. -/
lemma purgeModelsDelete_executions (o : FailureOracle) (s : RunState) (e : ExecutionDB)
    (la? : Option LiveActionDB) :
    (purgeModelsDelete o s e la?).store.executions =
      if o.failDeleteExecution e.id then s.store.executions
      else s.store.executions.filter (fun x => x.id != e.id) := by
  cases h : o.failDeleteExecution e.id with
  | true => simp [purgeModelsDelete, actionExecutionDelete, h]
  | false =>
    cases la? with
    | none => simp [purgeModelsDelete, actionExecutionDelete, h]
    | some la =>
      cases h2 : o.failDeleteLiveAction la.id with
      | true => simp [purgeModelsDelete, actionExecutionDelete, liveActionDelete, h, h2]
      | false => simp [purgeModelsDelete, actionExecutionDelete, liveActionDelete, h, h2]

/-- When the execution delete fails, the delete sequence changes nothing
but the failure log counter: the store (hence the child) is untouched and
no zombie is logged. -/
lemma purgeModelsDelete_fail (o : FailureOracle) (s : RunState) (e : ExecutionDB)
    (la? : Option LiveActionDB) (h : o.failDeleteExecution e.id = true) :
    purgeModelsDelete o s e la? =
      { s with deleteExecFailedLogs := s.deleteExecFailedLogs + 1 } := by
  simp [purgeModelsDelete, actionExecutionDelete, h]

/-- When the execution delete succeeds and no liveaction was resolved, the
delete sequence only removes the execution from the store. -/
lemma purgeModelsDelete_ok_none (o : FailureOracle) (s : RunState) (e : ExecutionDB)
    (h : o.failDeleteExecution e.id = false) :
    purgeModelsDelete o s e none =
      { s with store :=
          { s.store with executions := s.store.executions.filter (fun x => x.id != e.id) } } := by
  simp [purgeModelsDelete, actionExecutionDelete, h]

/-- When the execution delete succeeds but the liveaction delete fails,
the delete sequence removes the execution, leaves the liveaction
collection untouched, and logs exactly one zombie. -/
lemma purgeModelsDelete_ok_zombie (o : FailureOracle) (s : RunState) (e : ExecutionDB)
    (la : LiveActionDB) (h : o.failDeleteExecution e.id = false)
    (h2 : o.failDeleteLiveAction la.id = true) :
    purgeModelsDelete o s e (some la) =
      { s with
          store :=
            { s.store with executions := s.store.executions.filter (fun x => x.id != e.id) },
          zombieLogs := s.zombieLogs + 1 } := by
  simp [purgeModelsDelete, actionExecutionDelete, liveActionDelete, h, h2]

/-- A falsy liveaction id (absent or empty) makes the lookup raise. -/
lemma liveActionGetById_falsy (o : FailureOracle) (st : Store) (oid : Option String)
    (h : oid = none ∨ oid = some "") :
    liveActionGetById o st oid = Except.error "invalid id" := by
  rcases h with h | h <;> subst h <;> simp [liveActionGetById]

/-- When the liveaction lookup succeeds, `_purge_models` increments the
global `DELETED_COUNT` and runs the delete sequence with that liveaction;
a successful lookup also means the id was not falsy, so no invalid-id line
is logged. -/
lemma purgeModels_of_ok (o : FailureOracle) (s : RunState) (e : ExecutionDB)
    (la : LiveActionDB) (hla : liveActionGetById o s.store e.liveaction_id = Except.ok la) :
    purgeModels o s e =
      purgeModelsDelete o { s with deletedCount := s.deletedCount + 1 } e (some la) := by
  have hid : ¬ (e.liveaction_id = none ∨ e.liveaction_id = some "") := by
    intro h
    rw [liveActionGetById_falsy o s.store e.liveaction_id h] at hla
    exact Except.noConfusion hla
  unfold purgeModels
  simp only [if_neg hid]
  rw [hla]

/-- When the liveaction lookup raises, `_purge_models` logs the not-found
line, leaves `liveaction_db = None`, possibly logs the invalid-id line
first, and runs the delete sequence with no liveaction. -/
lemma purgeModels_of_error (o : FailureOracle) (s : RunState) (e : ExecutionDB)
    (msg : String)
    (hla : liveActionGetById o s.store e.liveaction_id = Except.error msg) :
    purgeModels o s e =
      purgeModelsDelete o
        { s with
            invalidIdLogs :=
              if e.liveaction_id = none ∨ e.liveaction_id = some "" then
                s.invalidIdLogs + 1
              else s.invalidIdLogs,
            notFoundLogs := s.notFoundLogs + 1 } e none := by
  by_cases hid : e.liveaction_id = none ∨ e.liveaction_id = some ""
  · unfold purgeModels
    simp only [if_pos hid]
    rw [show ({ s with invalidIdLogs := s.invalidIdLogs + 1 } : RunState).store = s.store from rfl,
      hla]
  · unfold purgeModels
    simp only [if_neg hid]
    rw [hla]

/-- A terminal execution whose liveaction exists. -/
def e2bug : ExecutionDB :=
  { id := 3, status := "succeeded", start_timestamp := 0, end_timestamp := 0,
    liveaction_id := some "la3", liveaction_action := "core.local" }

/-- The store holding `e2bug` and its liveaction. -/
def st2bug : Store := { executions := [e2bug], liveactions := [{ id := "la3" }] }

/-- An oracle that makes only the delete of execution 3 fail. -/
def o2bug : FailureOracle where
  failGetLiveAction := fun _ => false
  failDeleteExecution := fun i => i == 3
  failDeleteLiveAction := fun _ => false

/-- The zeroed run state over `st2bug`. -/
def s2bug : RunState :=
  { store := st2bug, deletedCount := 0, queries := 0, invalidIdLogs := 0,
    notFoundLogs := 0, deleteExecFailedLogs := 0, zombieLogs := 0 }

/-- C2 evidence: when the parent (ActionExecution) delete fails, the store
is indeed untouched (no child delete is attempted) and processing can
continue, but the global `DELETED_COUNT` — the count the script reports as
"Total execution models deleted" — has already been incremented by the
successful liveaction lookup, contradicting the claim that no count is
incremented for such a candidate. -/
theorem c2_count_incremented_on_failed_parent_delete :
    (purgeModels o2bug s2bug e2bug).store = s2bug.store ∧
    (purgeModels o2bug s2bug e2bug).deletedCount = 1 ∧
    (purgeModels o2bug s2bug e2bug).zombieLogs = 0 ∧
    (purgeModels o2bug s2bug e2bug).deleteExecFailedLogs = 1 := by
  decide

/-- C4: when the liveaction lookup succeeded, the parent delete succeeds
and the child delete then fails, exactly one zombie line is logged, the
deleted-executions counter went up exactly once, the child record stays in
the store untouched (the delete is attempted only this once in the step),
and the parent record is removed. -/
theorem c4_zombie_accounting (o : FailureOracle) (s : RunState) (e : ExecutionDB)
    (la : LiveActionDB)
    (hla : liveActionGetById o s.store e.liveaction_id = Except.ok la)
    (hexec : o.failDeleteExecution e.id = false)
    (hchild : o.failDeleteLiveAction la.id = true) :
    (purgeModels o s e).zombieLogs = s.zombieLogs + 1 ∧
    (purgeModels o s e).deletedCount = s.deletedCount + 1 ∧
    (purgeModels o s e).store.liveactions = s.store.liveactions ∧
    (purgeModels o s e).store.executions = s.store.executions.filter (fun x => x.id != e.id) := by
  rw [purgeModels_of_ok o s e la hla, purgeModelsDelete_ok_zombie o _ e la hexec hchild]
  exact ⟨rfl, rfl, rfl, rfl⟩

/-- A terminal execution for the C4 witness. -/
def e4w : ExecutionDB :=
  { id := 4, status := "succeeded", start_timestamp := 0, end_timestamp := 0,
    liveaction_id := some "la4", liveaction_action := "core.local" }

/-- The liveaction referenced by `e4w`. -/
def la4w : LiveActionDB := { id := "la4" }

/-- The zeroed run state over the store holding `e4w` and `la4w`. -/
def s4w : RunState :=
  { store := { executions := [e4w], liveactions := [la4w] }, deletedCount := 0,
    queries := 0, invalidIdLogs := 0, notFoundLogs := 0, deleteExecFailedLogs := 0,
    zombieLogs := 0 }

/-- An oracle that makes only the delete of liveaction la4 fail. -/
def o4w : FailureOracle where
  failGetLiveAction := fun _ => false
  failDeleteExecution := fun _ => false
  failDeleteLiveAction := fun i => i == "la4"

/-- C4 witness at a concrete store, execution and oracle. -/
theorem c4_witness :
    liveActionGetById o4w s4w.store e4w.liveaction_id = Except.ok la4w ∧
    o4w.failDeleteExecution e4w.id = false ∧
    o4w.failDeleteLiveAction la4w.id = true ∧
    ((purgeModels o4w s4w e4w).zombieLogs = s4w.zombieLogs + 1 ∧
     (purgeModels o4w s4w e4w).deletedCount = s4w.deletedCount + 1 ∧
     (purgeModels o4w s4w e4w).store.liveactions = s4w.store.liveactions ∧
     (purgeModels o4w s4w e4w).store.executions =
       s4w.store.executions.filter (fun x => x.id != e4w.id)) :=
  ⟨rfl, rfl, rfl, c4_zombie_accounting o4w s4w e4w la4w rfl rfl rfl⟩

/-- C5: a candidate whose embedded liveaction id is absent or empty is
still deleted from the execution collection (the parent delete proceeds),
the liveaction collection is untouched, the invalid-id and not-found lines
are each logged once (the missing-child accounting) and no zombie line is
logged (never accounted as orphaned). -/
theorem c5_missing_child_accounting (o : FailureOracle) (s : RunState) (e : ExecutionDB)
    (hid : e.liveaction_id = none ∨ e.liveaction_id = some "")
    (hexec : o.failDeleteExecution e.id = false) :
    (purgeModels o s e).store.executions = s.store.executions.filter (fun x => x.id != e.id) ∧
    (purgeModels o s e).store.liveactions = s.store.liveactions ∧
    (purgeModels o s e).invalidIdLogs = s.invalidIdLogs + 1 ∧
    (purgeModels o s e).notFoundLogs = s.notFoundLogs + 1 ∧
    (purgeModels o s e).zombieLogs = s.zombieLogs ∧
    (purgeModels o s e).deletedCount = s.deletedCount := by
  rw [purgeModels_of_error o s e _ (liveActionGetById_falsy o s.store e.liveaction_id hid),
    purgeModelsDelete_ok_none o _ e hexec]
  refine ⟨rfl, rfl, ?_, rfl, rfl, rfl⟩
  simp [if_pos hid]

/-- A terminal execution with no embedded liveaction id. -/
def e5w : ExecutionDB :=
  { id := 5, status := "succeeded", start_timestamp := 0, end_timestamp := 0,
    liveaction_id := none, liveaction_action := "core.local" }

/-- The zeroed run state over the store holding only `e5w`. -/
def s5w : RunState :=
  { store := { executions := [e5w], liveactions := [] }, deletedCount := 0,
    queries := 0, invalidIdLogs := 0, notFoundLogs := 0, deleteExecFailedLogs := 0,
    zombieLogs := 0 }

/-- C5 witness at a concrete store and execution. -/
theorem c5_witness :
    (e5w.liveaction_id = none ∨ e5w.liveaction_id = some "") ∧
    noFail.failDeleteExecution e5w.id = false ∧
    ((purgeModels noFail s5w e5w).store.executions =
       s5w.store.executions.filter (fun x => x.id != e5w.id) ∧
     (purgeModels noFail s5w e5w).store.liveactions = s5w.store.liveactions ∧
     (purgeModels noFail s5w e5w).invalidIdLogs = s5w.invalidIdLogs + 1 ∧
     (purgeModels noFail s5w e5w).notFoundLogs = s5w.notFoundLogs + 1 ∧
     (purgeModels noFail s5w e5w).zombieLogs = s5w.zombieLogs ∧
     (purgeModels noFail s5w e5w).deletedCount = s5w.deletedCount) :=
  ⟨Or.inl rfl, rfl, c5_missing_child_accounting noFail s5w e5w (Or.inl rfl) rfl⟩

/-- Unfolding of `purge_executions` on a present timestamp: one store
query, the materialised candidate list, then the per-candidate fold. -/
lemma purgeExecutions_some (o : FailureOracle) (ts : Int) (ref : Option String)
    (s : RunState) :
    purgeExecutions o (some ts) ref s =
      (selectCandidates s.store ts (ref.getD "")).foldl (purgeModels o)
        { s with queries := s.queries + 1 } := rfl

/-- C6: per-candidate processing is exception-free (every store exception
inside `_purge_models` is caught, so it is a total function into run
states), and the batch fold factors through any split of the candidate
list: whatever the outcomes of the earlier candidates, `_purge_models` is
still applied to each later candidate.  The second part records that
`purge_executions` is exactly this fold over the materialised candidate
list. -/
theorem c6_no_exception_escapes_batch :
    (∀ (o : FailureOracle) (s : RunState) (l1 l2 : List ExecutionDB) (e : ExecutionDB),
      (l1 ++ e :: l2).foldl (purgeModels o) s =
        l2.foldl (purgeModels o) (purgeModels o (l1.foldl (purgeModels o) s) e)) ∧
    (∀ (o : FailureOracle) (ts : Int) (ref : Option String) (s : RunState),
      purgeExecutions o (some ts) ref s =
        (selectCandidates s.store ts (ref.getD "")).foldl (purgeModels o)
          { s with queries := s.queries + 1 }) := by
  constructor
  · intro o s l1 l2 e
    rw [List.foldl_append]
    rfl
  · intro o ts ref s
    rfl

/-- C7: with no cutoff timestamp, `purge_executions` returns with the run
state (store, query counter, every counter) untouched — no store access
happens — and `main` returns the non-zero exit code 1 without running the
purge. -/
theorem c7_missing_timestamp_aborts (o : FailureOracle) (ref : Option String)
    (s : RunState) :
    purgeExecutions o none ref s = s ∧ mainRun o none ref s = (1, s) ∧
      (mainRun o none ref s).1 ≠ 0 :=
  ⟨rfl, rfl, Nat.one_ne_zero⟩

/-- The global `DELETED_COUNT` moves by exactly one per `_purge_models`
call whose liveaction lookup succeeds, and by zero otherwise — regardless
of any delete outcome. -/
lemma purgeModels_deletedCount (o : FailureOracle) (s : RunState) (e : ExecutionDB) :
    (purgeModels o s e).deletedCount =
      s.deletedCount +
        (match liveActionGetById o s.store e.liveaction_id with
         | Except.ok _ => 1
         | Except.error _ => 0) := by
  cases hla : liveActionGetById o s.store e.liveaction_id with
  | ok la =>
    rw [purgeModels_of_ok o s e la hla, (purgeModelsDelete_counts o _ e (some la)).1]
  | error msg =>
    rw [purgeModels_of_error o s e msg hla, (purgeModelsDelete_counts o _ e none).1]
    rfl

/-- Across any candidate fold, `DELETED_COUNT` never decreases. -/
lemma foldl_deletedCount_mono (o : FailureOracle) :
    ∀ (l : List ExecutionDB) (s : RunState),
      s.deletedCount ≤ (l.foldl (purgeModels o) s).deletedCount := by
  intro l
  induction l with
  | nil => intro s; exact le_refl _
  | cons c l ih =>
    intro s
    calc s.deletedCount ≤ (purgeModels o s c).deletedCount := by
          rw [purgeModels_deletedCount]
          exact Nat.le_add_right _ _
      _ ≤ _ := ih _

/-- A terminal execution with an existing child, whose delete the oracle
rejects. -/
def e9 : ExecutionDB :=
  { id := 6, status := "succeeded", start_timestamp := 0, end_timestamp := 0,
    liveaction_id := some "la6", liveaction_action := "core.local" }

/-- An oracle that makes only the delete of execution 6 fail. -/
def o9 : FailureOracle where
  failGetLiveAction := fun _ => false
  failDeleteExecution := fun i => i == 6
  failDeleteLiveAction := fun _ => false

/-- The zeroed run state over the store holding `e9` and its liveaction. -/
def s9 : RunState :=
  { store := { executions := [e9], liveactions := [{ id := "la6" }] },
    deletedCount := 0, queries := 0, invalidIdLogs := 0, notFoundLogs := 0,
    deleteExecFailedLogs := 0, zombieLogs := 0 }

/-- C9 counterexample: over a store whose only candidate resists deletion,
the first `purge_executions` invocation deletes nothing yet reports
`DELETED_COUNT = 1` (the counter is incremented by the liveaction lookup,
not the delete step), and a second invocation reports the cumulative 2 —
the counter is a module global that is not created fresh per invocation. -/
theorem c9_counterexample :
    (purgeExecutions o9 (some 5) none s9).deletedCount = 1 ∧
    (purgeExecutions o9 (some 5) none s9).store = s9.store ∧
    (purgeExecutions o9 (some 5) none (purgeExecutions o9 (some 5) none s9)).deletedCount = 2 ∧
    (purgeExecutions o9 (some 5) none (purgeExecutions o9 (some 5) none s9)).store =
      s9.store := by
  decide

/-- C9 (amended): `DELETED_COUNT` is a process-wide global that
`purge_executions` never resets — an invocation only ever grows the count
it was given — and it is mutated by the liveaction-lookup step of
`_purge_models` (one increment per candidate whose lookup succeeds,
independent of any delete outcome), so the count reported at the end of a
run is cumulative over all invocations in the process. -/
theorem c9_amended_global_counter :
    (∀ (o : FailureOracle) (ts : Option Int) (ref : Option String) (s : RunState),
      s.deletedCount ≤ (purgeExecutions o ts ref s).deletedCount) ∧
    (∀ (o : FailureOracle) (s : RunState) (e : ExecutionDB),
      (purgeModels o s e).deletedCount =
        s.deletedCount +
          (match liveActionGetById o s.store e.liveaction_id with
           | Except.ok _ => 1
           | Except.error _ => 0)) := by
  constructor
  · intro o ts ref s
    cases ts with
    | none => exact le_refl _
    | some ts =>
      exact foldl_deletedCount_mono o (selectCandidates s.store ts (ref.getD ""))
        { s with queries := s.queries + 1 }
  · exact purgeModels_deletedCount

/-- When the oracle never fails the delete of a given execution,
`_purge_models` removes it from the execution collection whatever the
liveaction lookup and liveaction delete do. -/
lemma purgeModels_executions_of_nofail (o : FailureOracle) (s : RunState)
    (c : ExecutionDB) (h : o.failDeleteExecution c.id = false) :
    (purgeModels o s c).store.executions =
      s.store.executions.filter (fun x => x.id != c.id) := by
  cases hla : liveActionGetById o s.store c.liveaction_id with
  | ok la =>
    rw [purgeModels_of_ok o s c la hla, purgeModelsDelete_executions o _ c (some la), h]
    simp
  | error msg =>
    rw [purgeModels_of_error o s c msg hla, purgeModelsDelete_executions o _ c none, h]
    simp

/-- An execution surviving a candidate fold whose deletes all succeed was
already in the store and shares its id with no processed candidate. -/
lemma foldl_executions_subset (o : FailureOracle) :
    ∀ (l : List ExecutionDB) (s : RunState) (e : ExecutionDB),
      (∀ c ∈ l, o.failDeleteExecution c.id = false) →
      e ∈ (l.foldl (purgeModels o) s).store.executions →
      e ∈ s.store.executions ∧ ∀ c ∈ l, e.id ≠ c.id := by
  intro l
  induction l with
  | nil =>
    intro s e _ he
    exact ⟨he, fun c hc => absurd hc (List.not_mem_nil c)⟩
  | cons c l ih =>
    intro s e hfail he
    have hc := hfail c (List.mem_cons_self c l)
    obtain ⟨hmem, hrest⟩ :=
      ih (purgeModels o s c) e (fun d hd => hfail d (List.mem_cons_of_mem c hd)) he
    rw [purgeModels_executions_of_nofail o s c hc] at hmem
    obtain ⟨hm, hne⟩ := List.mem_filter.mp hmem
    have hne' : e.id ≠ c.id := by simpa using hne
    refine ⟨hm, ?_⟩
    intro d hd
    rcases List.mem_cons.mp hd with h | h
    · rw [← h] at hne'
      exact hne'
    · exact hrest d h

/-- C8: over a store none of whose executions resist deletion, a second
`purge_executions` run with the same criteria finds zero candidates, and
the run changes nothing beyond its own query counter — in particular it
deletes zero records and leaves `DELETED_COUNT` where it was. -/
theorem c8_second_run_finds_nothing (o : FailureOracle) (ts : Int) (ref : Option String)
    (s : RunState)
    (h : (s.store.executions.all fun c => !(o.failDeleteExecution c.id)) = true) :
    selectCandidates (purgeExecutions o (some ts) ref s).store ts (ref.getD "") = [] ∧
    purgeExecutions o (some ts) ref (purgeExecutions o (some ts) ref s) =
      { purgeExecutions o (some ts) ref s with
          queries := (purgeExecutions o (some ts) ref s).queries + 1 } := by
  have h' : ∀ c ∈ s.store.executions, o.failDeleteExecution c.id = false := by
    intro c hc
    have := List.all_eq_true.mp h c hc
    simpa using this
  have h1 : selectCandidates (purgeExecutions o (some ts) ref s).store ts (ref.getD "") = [] := by
    apply List.eq_nil_iff_forall_not_mem.mpr
    intro e he
    rw [mem_selectCandidates] at he
    obtain ⟨hmem1, hend, hsd⟩ := he
    rw [purgeExecutions_some] at hmem1
    obtain ⟨hmem0, hne⟩ :=
      foldl_executions_subset o (selectCandidates s.store ts (ref.getD ""))
        { s with queries := s.queries + 1 } e
        (fun c hc => h' c (mem_selectCandidates.mp hc).1) hmem1
    exact hne e (mem_selectCandidates.mpr ⟨hmem0, hend, hsd⟩) rfl
  refine ⟨h1, ?_⟩
  rw [purgeExecutions_some o ts ref (purgeExecutions o (some ts) ref s), h1]
  rfl

/-- A terminal execution with an existing child, everything deletable. -/
def e8w : ExecutionDB :=
  { id := 8, status := "succeeded", start_timestamp := 0, end_timestamp := 0,
    liveaction_id := some "la8", liveaction_action := "core.local" }

/-- The zeroed run state over the store holding `e8w` and its liveaction. -/
def s8w : RunState :=
  { store := { executions := [e8w], liveactions := [{ id := "la8" }] },
    deletedCount := 0, queries := 0, invalidIdLogs := 0, notFoundLogs := 0,
    deleteExecFailedLogs := 0, zombieLogs := 0 }

/-- C8 witness: a concrete one-candidate store with a failure-free store;
the first run purges it, the second finds nothing and deletes nothing. -/
theorem c8_witness :
    (s8w.store.executions.all fun c => !(noFail.failDeleteExecution c.id)) = true ∧
    (selectCandidates (purgeExecutions noFail (some 5) none s8w).store 5
        ((none : Option String).getD "") = [] ∧
     purgeExecutions noFail (some 5) none (purgeExecutions noFail (some 5) none s8w) =
       { purgeExecutions noFail (some 5) none s8w with
           queries := (purgeExecutions noFail (some 5) none s8w).queries + 1 }) :=
  ⟨by decide, c8_second_run_finds_nothing noFail 5 none s8w (by decide)⟩

end PurgeExecutions
